import Mathlib

/-!
Shallow embedding of the application-controller layer in
`cogent/app/vienna_package.py` and `cogent/app/cove.py`:
result-path resolution for RNAfold and RNAplot, the output-extension
selector, the constrained-fold and plot helper functions, and the
input-adaptation methods of the cove-family wrappers.
-/

namespace PyCogent

/-- Python `str.strip(chars)`: remove all leading and trailing characters of
`s` that belong to `chars`. -/
def pyStrip (chars : List Char) (s : String) : String :=
  ⟨(((s.data.dropWhile fun c => chars.contains c).reverse.dropWhile
      fun c => chars.contains c)).reverse⟩

/-- Python `item.startswith('>')`: the first character of the string is `>`. -/
def startsWithGt (s : String) : Bool :=
  match s.data with
  | [] => false
  | c :: _ => c == '>'

/-- Python `sep.join(xs)`. -/
def pyJoin (sep : String) : List String → String
  | [] => ""
  | [x] => x
  | x :: rest => x ++ sep ++ pyJoin sep rest

/-- `ResultPath` from `cogent.app.util`: a predicted output path together with
the flag saying whether the wrapper expects the file to be written.
Modelled from the spec: the class itself lives in `cogent/app/util.py`
(not under `src/`); per the spec's result-object invariant an entry is
expected to be written unless explicitly tagged otherwise, so the
`IsWritten` flag defaults to `true` when the caller does not pass it. -/
structure ResultPath where
  Path : String
  IsWritten : Bool
deriving DecidableEq

/-- A Python dict from output name to `ResultPath`, as an association list
with no duplicate keys (inserting an existing key replaces its value). -/
abbrev RDict := List (String × ResultPath)

/-- Dict lookup. -/
def dictLookup : RDict → String → Option ResultPath
  | [], _ => none
  | (k0, v0) :: rest, k => if k0 = k then some v0 else dictLookup rest k

/-- Dict assignment `d[k] = v`: replace the value at `k` if the key is
present, otherwise append the new binding. -/
def dictInsert : RDict → String → ResultPath → RDict
  | [], k, v => [(k, v)]
  | (k0, v0) :: rest, k, v =>
      if k0 = k then (k0, v) :: rest else (k0, v0) :: dictInsert rest k v

/-- `s` ends with the string `t`. -/
def strEndsWith (s t : String) : Bool :=
  decide (t.data <:+ s.data)

/-- `item.strip('>\n')` from the result-path resolvers: the bare name of a
name-marked record. -/
def stripName (s : String) : String :=
  pyStrip [ '>', '\n' ] s

/-- The loop of `RNAfold._get_result_paths` (vienna_package.py lines 84-94):
scan the records, registering `<name>_ss` and `<name>_dp` entries for each
name-marked record and counting name-marked (`nc`) and other (`sc`)
records. -/
def rnafoldScan (wd : String) (pOn : Bool) (m : RDict) (nc sc : Nat) :
    List String → RDict × Nat × Nat
  | [] => (m, nc, sc)
  | item :: rest =>
      if startsWithGt item then
        rnafoldScan wd pOn
          (dictInsert
            (dictInsert m (stripName item ++ "_ss")
              ⟨wd ++ stripName item ++ "_ss.ps", true⟩)
            (stripName item ++ "_dp")
            ⟨wd ++ stripName item ++ "_dp.ps", pOn⟩)
          (nc + 1) sc rest
      else
        rnafoldScan wd pOn m nc (sc + 1) rest

/-- `RNAfold._get_result_paths` on list data (vienna_package.py lines 78-101):
the scan above followed by the unconditional default entries, `SS` written
iff `seq_counter - name_counter > 0` and `DP` written iff additionally the
`-p` Parameter is on. `wd` is `self.WorkingDir`, `pOn` is
`self.Parameters['-p'].isOn()`. -/
def RNAfold_get_result_paths (wd : String) (pOn : Bool)
    (data : List String) : RDict :=
  let r := rnafoldScan wd pOn [] 0 0 data
  dictInsert
    (dictInsert r.1 "SS"
      ⟨wd ++ "rna.ps", decide ((r.2.2 : Int) - (r.2.1 : Int) > 0)⟩)
    "DP"
    ⟨wd ++ "dot.ps", pOn && decide ((r.2.2 : Int) - (r.2.1 : Int) > 0)⟩

/-- The stripped names of the name-marked records of the input, in order. -/
def markedNames : List String → List String
  | [] => []
  | item :: rest =>
      if startsWithGt item then stripName item :: markedNames rest
      else markedNames rest

/-- The number of records that are not name-marked (the anonymous records). -/
def anonCount : List String → Nat
  | [] => 0
  | item :: rest =>
      if startsWithGt item then anonCount rest else anonCount rest + 1

/-- The per-name entries that the RNAfold scan appends, in order, when no
name collision occurs. -/
def namedEntries (wd : String) (pOn : Bool) : List String → RDict
  | [] => []
  | item :: rest =>
      if startsWithGt item then
        (stripName item ++ "_ss", ⟨wd ++ stripName item ++ "_ss.ps", true⟩) ::
        (stripName item ++ "_dp", ⟨wd ++ stripName item ++ "_dp.ps", pOn⟩) ::
        namedEntries wd pOn rest
      else
        namedEntries wd pOn rest

/-- A Python exception raised during result-path resolution or input
adaptation. -/
inductive PyErr where
  | nameError (nm : String)
  | keyError (key : String)
  | typeError (msg : String)
deriving DecidableEq

/-- The class attribute `RNAplot.FILETYPE_TO_EXTENSION`
(vienna_package.py lines 219-223). -/
def FILETYPE_TO_EXTENSION : List (String × String) :=
  [("ps", ".ps"), ("gml", ".gml"), ("svg", ".svg"), ("xrna", ".ss")]

/-- The names bound at module level in `vienna_package.py`: the imports
(lines 3-10) and the module-level definitions. Python resolves a bare name
inside a method body against this scope (and builtins), never against the
enclosing class body, so `FILETYPE_TO_EXTENSION` is absent here. -/
def viennaModuleGlobals : List String :=
  ["CommandLineApplication", "CommandLineAppResult", "ResultPath",
   "Parameter", "FlagParameter", "ValuedParameter", "MixedParameter",
   "Parameters", "_find_synonym", "is_not_None", "ViennaStructure",
   "DataError", "MinimalRnaalifoldParser", "choice",
   "__author__", "__copyright__", "__credits__", "__license__",
   "__version__", "__maintainer__", "__email__", "__status__",
   "RNAfold", "get_constrained_fold", "RNAsubopt", "RNAplot",
   "plot_from_seq_and_struct"]

/-- `RNAplot._get_outfile_extension` (vienna_package.py lines 261-268).
When the `-o` Parameter is off it returns `'.ps'`; otherwise it computes
`self._absolute(str(self.Parameters['-o'].Value))` (the `_absolute` helper
from `cogent/app/util.py` is outside `src/`, so it is passed in as the
opaque function `absolute`) and then evaluates the bare name
`FILETYPE_TO_EXTENSION`, which resolves in module scope (a `NameError`
when absent there) before the subscript lookup (a `KeyError` when the key
is absent from the table). -/
def RNAplot_get_outfile_extension (oOn : Bool) (oVal : String)
    (absolute : String → String) : Except PyErr String :=
  if !oOn then .ok ".ps"
  else
    let filetype := absolute oVal
    if viennaModuleGlobals.contains "FILETYPE_TO_EXTENSION" then
      match FILETYPE_TO_EXTENSION.lookup filetype with
      | some ext => .ok ext
      | none => .error (.keyError filetype)
    else .error (.nameError "FILETYPE_TO_EXTENSION")

/-- The loop of `RNAplot._get_result_paths` (vienna_package.py lines
291-298): register one `<name>_ss` entry per name-marked record and count
name-marked (`nc`) and other (`sc`) records. -/
def rnaplotScan (wd ext : String) (m : RDict) (nc sc : Nat) :
    List String → RDict × Nat × Nat
  | [] => (m, nc, sc)
  | item :: rest =>
      if startsWithGt item then
        rnaplotScan wd ext
          (dictInsert m (stripName item ++ "_ss")
            ⟨wd ++ stripName item ++ "_ss" ++ ext, true⟩)
          (nc + 1) sc rest
      else
        rnaplotScan wd ext m nc (sc + 1) rest

/-- `RNAplot._get_result_paths` on list data (vienna_package.py lines
270-302): first resolve the extension (which may raise), then scan, then
add the default `SS` entry only when `seq_counter/2 - name_counter > 0`
(Python 2 floor division of the nonnegative counter). -/
def RNAplot_get_result_paths (wd : String) (oOn : Bool) (oVal : String)
    (absolute : String → String) (data : List String) :
    Except PyErr RDict :=
  match RNAplot_get_outfile_extension oOn oVal absolute with
  | .error e => .error e
  | .ok ext =>
      let r := rnaplotScan wd ext [] 0 0 data
      .ok (if decide (((r.2.2 / 2 : Nat) : Int) - (r.2.1 : Int) > 0) then
        dictInsert r.1 "SS" ⟨wd ++ "rna" ++ ext, true⟩
      else r.1)

/-- The per-name entries that the RNAplot scan appends, in order, when no
name collision occurs. -/
def plotEntries (wd ext : String) : List String → RDict
  | [] => []
  | item :: rest =>
      if startsWithGt item then
        (stripName item ++ "_ss",
          ⟨wd ++ stripName item ++ "_ss" ++ ext, true⟩) ::
        plotEntries wd ext rest
      else
        plotEntries wd ext rest

/-- The observable outcome of a helper function up to the external
application call: either an exception was raised first, or the wrapped
application was invoked on the given input list. -/
inductive HelperOutcome where
  | raised (msg : String)
  | invoked (input : List String)
deriving DecidableEq

/-- `get_constrained_fold` (vienna_package.py lines 103-124) up to the
application call: raises on an empty sequence, an empty constraint string,
or a length mismatch, and otherwise invokes RNAfold on
`[sequence, constraint_string]`. -/
def get_constrained_fold (sequence constraint : String) : HelperOutcome :=
  if sequence = "" then .raised "No sequence found!"
  else if constraint = "" then .raised "No constraint string found!"
  else if sequence.length ≠ constraint.length then
    .raised "Sequence and constraint string are not same length!"
  else .invoked [sequence, constraint]

/-- `plot_from_seq_and_struct` (vienna_package.py lines 304-321) up to the
application call: raises `DataError` on a length mismatch and otherwise
invokes RNAplot on `['>'+seqname, seq, struct]`. The `ViennaStructure`
constructor is an external collaborator (structure-validity checking is
out of scope per the spec) and behaves as the structure string itself, so
`len(struct)` is the string's length; `tmpname` stands for the randomly
generated `_get_tmp_seqname()` used when `seqname` is `None`. -/
def plot_from_seq_and_struct (seq struct : String)
    (seqname : Option String) (tmpname : String) : HelperOutcome :=
  if seq.length ≠ struct.length then
    .raised "Sequence and structure are not same length!"
  else
    .invoked ([">" ++ (match seqname with
      | some n => n
      | none => tmpname), seq, struct])

/-- Modelled from the spec: `CommandLineApplication._input_as_string` in
`cogent/app/util.py` is not under `src/`; per the spec's input-adaptation
strategy the main input token for path-based input is the filename
itself. -/
def base_input_as_string (filename : String) : String := filename

/-- `Covet._input_as_string` (cove.py lines 53-55):
`' '.join([filename+'.cm', super()._input_as_string(filename)])`. -/
def Covet_input_as_string (filename : String) : String :=
  pyJoin " " [filename ++ ".cm", base_input_as_string filename]

/-- The token returned by `Covet._input_as_lines` (cove.py lines 57-65)
once the temporary file name has been generated:
`' '.join([filename+'.cm', filename])`. -/
def Covet_input_as_lines_tokens (tmpFilename : String) : String :=
  pyJoin " " [tmpFilename ++ ".cm", tmpFilename]

/-- The content that `Covet._input_as_lines` (cove.py lines 57-65) writes
to the temporary file: `'\n'.join([str(d).strip('\n') for d in data])`
followed by one extra `'\n'`. -/
def Covet_input_as_lines_content (data : List String) : String :=
  pyJoin "\n" (data.map (pyStrip [ '\n' ])) ++ "\n"

/-- Modelled from the spec: `CommandLineApplication._input_as_lines` in
`cogent/app/util.py` is not under `src/`; per the spec it materializes the
records to a fresh temporary file in the working directory and returns
that file's name as the input token. -/
def base_input_as_lines_token (tmpFilename : String) : String := tmpFilename

/-- A Python value as it occurs in the cove input adapters: either a
string or a list of strings. -/
inductive PyVal where
  | pystr (s : String)
  | pylist (xs : List String)
deriving DecidableEq

/-- Python `+` on such values: string concatenation, list concatenation,
and a `TypeError` on a mixed application. -/
def pyAdd : PyVal → PyVal → Except PyErr PyVal
  | .pystr a, .pystr b => .ok (.pystr (a ++ b))
  | .pylist a, .pylist b => .ok (.pylist (a ++ b))
  | .pylist _, .pystr _ =>
      .error (.typeError "can only concatenate list (not str) to list")
  | .pystr _, .pylist _ =>
      .error (.typeError "cannot concatenate str and list objects")

/-- `Covee._input_as_lines` (cove.py lines 154-156):
`''.join([data+'.cm', super(Covee,self)._input_as_lines(data)])`, where
`data` is the record list. Python first evaluates the list literal, whose
first element `data+'.cm'` adds a list and a string; if that ever
produced a string the join of the two tokens with the empty separator
would be returned, and a surviving list element would make the join
itself raise. -/
def Covee_input_as_lines (data : List String) (tmpFilename : String) :
    Except PyErr String :=
  match pyAdd (.pylist data) (.pystr ".cm") with
  | .error e => .error e
  | .ok (.pystr s) =>
      .ok (pyJoin "" [s, base_input_as_lines_token tmpFilename])
  | .ok (.pylist _) =>
      .error (.typeError "sequence item 0: expected string, list found")

/-- Helper for `readlines`: split a character stream into lines, keeping
the terminating newline of each line; `acc` holds the current line read so
far, reversed. -/
def readlinesAux : List Char → List Char → List String
  | [], acc => if acc.isEmpty then [] else [⟨acc.reverse⟩]
  | c :: rest, acc =>
      if c = '\n' then ⟨(c :: acc).reverse⟩ :: readlinesAux rest []
      else readlinesAux rest (c :: acc)

/-- Python `file.readlines()` on the file content: the lines of the
string, each keeping its terminating newline, with a final unterminated
line kept as well. -/
def readlines (s : String) : List String :=
  readlinesAux s.data []

/-! ### String helper lemmas -/

theorem strExt : ∀ {a b : String}, a.data = b.data → a = b
  | ⟨_⟩, ⟨_⟩, rfl => rfl

theorem strLength_append (a b : String) :
    (a ++ b).length = a.length + b.length := by
  have h : (a ++ b).data.length = a.data.length + b.data.length := by
    rw [String.data_append]; exact List.length_append a.data b.data
  exact h

theorem strAppend_assoc (a b c : String) : a ++ b ++ c = a ++ (b ++ c) := by
  apply strExt
  simp [String.data_append, List.append_assoc]

theorem ss_ne_dp (n m : String) : n ++ "_ss" ≠ m ++ "_dp" := by
  intro h
  have hd := congrArg String.data h
  rw [String.data_append, String.data_append] at hd
  have h2 := (List.append_inj' hd (by rfl)).2
  exact absurd h2 (by decide)

theorem ss_inj {n m : String} (h : n ++ "_ss" = m ++ "_ss") : n = m := by
  have hd := congrArg String.data h
  rw [String.data_append, String.data_append] at hd
  exact strExt (List.append_cancel_right hd)

theorem dp_inj {n m : String} (h : n ++ "_dp" = m ++ "_dp") : n = m := by
  have hd := congrArg String.data h
  rw [String.data_append, String.data_append] at hd
  exact strExt (List.append_cancel_right hd)

theorem append_ne_of_length {n t s : String}
    (h : n.length + t.length ≠ s.length) : n ++ t ≠ s := by
  intro he
  exact h (by rw [← strLength_append, he])

theorem suffix3_ne_len2 (n : String) {t s : String} (ht : t.length = 3)
    (hs : s.length = 2) : n ++ t ≠ s :=
  append_ne_of_length (by omega)

theorem strEndsWith_append (a b : String) : strEndsWith (a ++ b) b = true := by
  apply decide_eq_true
  rw [String.data_append]
  exact List.suffix_append a.data b.data

/-! ### Dict lemmas -/

theorem dictLookup_insert_self (m : RDict) (k : String) (v : ResultPath) :
    dictLookup (dictInsert m k v) k = some v := by
  induction m with
  | nil => simp [dictInsert, dictLookup]
  | cons p rest ih =>
      by_cases h : p.1 = k
      · simp [dictInsert, dictLookup, h]
      · simp [dictInsert, dictLookup, h, ih]

theorem dictLookup_insert_ne (m : RDict) {k k2 : String} (v : ResultPath)
    (h : k2 ≠ k) : dictLookup (dictInsert m k v) k2 = dictLookup m k2 := by
  have h2 : ¬ (k = k2) := fun he => h he.symm
  induction m with
  | nil => simp [dictInsert, dictLookup, h2]
  | cons p rest ih =>
      by_cases hp : p.1 = k
      · simp [dictInsert, dictLookup, hp, h2]
      · by_cases hp2 : p.1 = k2
        · simp [dictInsert, dictLookup, hp, hp2, h]
        · simp [dictInsert, dictLookup, hp, hp2, ih]

theorem dictInsert_of_none {m : RDict} {k : String}
    (h : dictLookup m k = none) (v : ResultPath) :
    dictInsert m k v = m ++ [(k, v)] := by
  induction m with
  | nil => simp [dictInsert]
  | cons p rest ih =>
      by_cases hp : p.1 = k
      · simp [dictLookup, hp] at h
      · simp [dictLookup, hp] at h
        simp [dictInsert, hp, ih h]

theorem dictLookup_append_none {m1 : RDict} {k : String}
    (h : dictLookup m1 k = none) (m2 : RDict) :
    dictLookup (m1 ++ m2) k = dictLookup m2 k := by
  induction m1 with
  | nil => simp
  | cons p rest ih =>
      by_cases hp : p.1 = k
      · simp [dictLookup, hp] at h
      · simp [dictLookup, hp] at h
        simp [dictLookup, hp, ih h]

theorem dictLookup_append_some {m1 : RDict} {k : String} {v : ResultPath}
    (h : dictLookup m1 k = some v) (m2 : RDict) :
    dictLookup (m1 ++ m2) k = some v := by
  induction m1 with
  | nil => simp [dictLookup] at h
  | cons p rest ih =>
      by_cases hp : p.1 = k
      · simp [dictLookup, hp] at h
        simp [dictLookup, hp, h]
      · simp [dictLookup, hp] at h
        simp [dictLookup, hp, ih h]

/-! ### RNAfold scan lemmas -/

theorem rnafoldScan_counts (wd : String) (pOn : Bool) :
    ∀ (data : List String) (m : RDict) (nc sc : Nat),
    (rnafoldScan wd pOn m nc sc data).2 =
      (nc + (markedNames data).length, sc + anonCount data) := by
  intro data
  induction data with
  | nil => intro m nc sc; simp [rnafoldScan, markedNames, anonCount]
  | cons item rest ih =>
      intro m nc sc
      cases h : startsWithGt item
      · simp [rnafoldScan, markedNames, anonCount, h, ih]; omega
      · simp [rnafoldScan, markedNames, anonCount, h, ih]; omega

theorem stripName_mem_markedNames {item : String} {data : List String}
    (h1 : item ∈ data) (h2 : startsWithGt item = true) :
    stripName item ∈ markedNames data := by
  induction data with
  | nil => simp at h1
  | cons x rest ih =>
      rcases List.mem_cons.mp h1 with h | h
      · subst h; simp [markedNames, h2]
      · cases hx : startsWithGt x
        · simpa [markedNames, hx] using ih h
        · simp [markedNames, hx]
          exact Or.inr (ih h)

theorem rnafoldScan_ss (wd : String) (pOn : Bool) :
    ∀ (data : List String) (m : RDict) (nc sc : Nat) (n : String),
    (n ∈ markedNames data ∨
      dictLookup m (n ++ "_ss") = some ⟨wd ++ n ++ "_ss.ps", true⟩) →
    dictLookup (rnafoldScan wd pOn m nc sc data).1 (n ++ "_ss")
      = some ⟨wd ++ n ++ "_ss.ps", true⟩ := by
  intro data
  induction data with
  | nil =>
      intro m nc sc n h
      rcases h with h | h
      · simp [markedNames] at h
      · simpa [rnafoldScan] using h
  | cons item rest ih =>
      intro m nc sc n h
      cases hst : startsWithGt item
      · rw [show rnafoldScan wd pOn m nc sc (item :: rest)
            = rnafoldScan wd pOn m nc (sc + 1) rest by simp [rnafoldScan, hst]]
        apply ih
        rcases h with h | h
        · exact Or.inl (by simpa [markedNames, hst] using h)
        · exact Or.inr h
      · rw [show rnafoldScan wd pOn m nc sc (item :: rest)
            = rnafoldScan wd pOn
                (dictInsert
                  (dictInsert m (stripName item ++ "_ss")
                    ⟨wd ++ stripName item ++ "_ss.ps", true⟩)
                  (stripName item ++ "_dp")
                  ⟨wd ++ stripName item ++ "_dp.ps", pOn⟩)
                (nc + 1) sc rest by simp [rnafoldScan, hst]]
        apply ih
        by_cases hn : n = stripName item
        · subst hn
          refine Or.inr ?_
          rw [dictLookup_insert_ne _ _ (ss_ne_dp (stripName item) (stripName item))]
          exact dictLookup_insert_self ..
        · rcases h with h | h
          · have : n ∈ markedNames rest := by
              rcases (by simpa [markedNames, hst] using h :
                n = stripName item ∨ n ∈ markedNames rest) with h2 | h2
              · exact absurd h2 hn
              · exact h2
            exact Or.inl this
          · refine Or.inr ?_
            rw [dictLookup_insert_ne _ _ (ss_ne_dp n (stripName item)),
              dictLookup_insert_ne _ _ (fun he => hn (ss_inj he))]
            exact h

theorem rnafoldScan_dp (wd : String) (pOn : Bool) :
    ∀ (data : List String) (m : RDict) (nc sc : Nat) (n : String),
    (n ∈ markedNames data ∨
      dictLookup m (n ++ "_dp") = some ⟨wd ++ n ++ "_dp.ps", pOn⟩) →
    dictLookup (rnafoldScan wd pOn m nc sc data).1 (n ++ "_dp")
      = some ⟨wd ++ n ++ "_dp.ps", pOn⟩ := by
  intro data
  induction data with
  | nil =>
      intro m nc sc n h
      rcases h with h | h
      · simp [markedNames] at h
      · simpa [rnafoldScan] using h
  | cons item rest ih =>
      intro m nc sc n h
      cases hst : startsWithGt item
      · rw [show rnafoldScan wd pOn m nc sc (item :: rest)
            = rnafoldScan wd pOn m nc (sc + 1) rest by simp [rnafoldScan, hst]]
        apply ih
        rcases h with h | h
        · exact Or.inl (by simpa [markedNames, hst] using h)
        · exact Or.inr h
      · rw [show rnafoldScan wd pOn m nc sc (item :: rest)
            = rnafoldScan wd pOn
                (dictInsert
                  (dictInsert m (stripName item ++ "_ss")
                    ⟨wd ++ stripName item ++ "_ss.ps", true⟩)
                  (stripName item ++ "_dp")
                  ⟨wd ++ stripName item ++ "_dp.ps", pOn⟩)
                (nc + 1) sc rest by simp [rnafoldScan, hst]]
        apply ih
        by_cases hn : n = stripName item
        · subst hn
          exact Or.inr (dictLookup_insert_self ..)
        · rcases h with h | h
          · have : n ∈ markedNames rest := by
              rcases (by simpa [markedNames, hst] using h :
                n = stripName item ∨ n ∈ markedNames rest) with h2 | h2
              · exact absurd h2 hn
              · exact h2
            exact Or.inl this
          · refine Or.inr ?_
            rw [dictLookup_insert_ne _ _ (fun he => hn (dp_inj he)),
              dictLookup_insert_ne _ _ (Ne.symm (ss_ne_dp (stripName item) n))]
            exact h

theorem namedEntries_length (wd : String) (pOn : Bool) :
    ∀ data : List String,
    (namedEntries wd pOn data).length = 2 * (markedNames data).length := by
  intro data
  induction data with
  | nil => simp [namedEntries, markedNames]
  | cons item rest ih =>
      cases hst : startsWithGt item
      · simp [namedEntries, markedNames, hst, ih]
      · simp [namedEntries, markedNames, hst, ih]; omega

theorem namedEntries_lookup_short (wd : String) (pOn : Bool) {s : String}
    (hs : s.length = 2) :
    ∀ data : List String, dictLookup (namedEntries wd pOn data) s = none := by
  intro data
  induction data with
  | nil => simp [namedEntries, dictLookup]
  | cons item rest ih =>
      cases hst : startsWithGt item
      · simp [namedEntries, hst, ih]
      · simp [namedEntries, hst, dictLookup,
          @suffix3_ne_len2 (stripName item) "_ss" s rfl hs,
          @suffix3_ne_len2 (stripName item) "_dp" s rfl hs, ih]

theorem namedEntries_lookup_ss {wd : String} {pOn : Bool} {n : String} :
    ∀ {data : List String}, n ∈ markedNames data →
    (dictLookup (namedEntries wd pOn data) (n ++ "_ss")).isSome := by
  intro data
  induction data with
  | nil => intro h; simp [markedNames] at h
  | cons item rest ih =>
      intro h
      cases hst : startsWithGt item
      · have h3 : n ∈ markedNames rest := by simpa [markedNames, hst] using h
        simpa [namedEntries, hst] using ih h3
      · rcases (by simpa [markedNames, hst] using h :
          n = stripName item ∨ n ∈ markedNames rest) with h2 | h2
        · subst h2
          simp [namedEntries, hst, dictLookup]
        · by_cases he1 : stripName item ++ "_ss" = n ++ "_ss"
          · simp [namedEntries, hst, dictLookup, he1]
          · by_cases he2 : stripName item ++ "_dp" = n ++ "_ss"
            · simp [namedEntries, hst, dictLookup, he1, he2]
            · simpa [namedEntries, hst, dictLookup, he1, he2] using ih h2

theorem rnafoldScan_closed (wd : String) (pOn : Bool) :
    ∀ (data : List String) (m : RDict),
    (markedNames data).Nodup →
    (∀ n ∈ markedNames data,
      dictLookup m (n ++ "_ss") = none ∧ dictLookup m (n ++ "_dp") = none) →
    ∀ nc sc,
    (rnafoldScan wd pOn m nc sc data).1 = m ++ namedEntries wd pOn data := by
  intro data
  induction data with
  | nil => intro m _ _ nc sc; simp [rnafoldScan, namedEntries]
  | cons item rest ih =>
      intro m hnd hf nc sc
      cases hst : startsWithGt item
      · have hnd2 : (markedNames rest).Nodup := by
          simpa [markedNames, hst] using hnd
        have hf2 : ∀ n ∈ markedNames rest,
            dictLookup m (n ++ "_ss") = none ∧
            dictLookup m (n ++ "_dp") = none := by
          intro n hn
          exact hf n (by simpa [markedNames, hst] using hn)
        rw [show rnafoldScan wd pOn m nc sc (item :: rest)
            = rnafoldScan wd pOn m nc (sc + 1) rest by simp [rnafoldScan, hst]]
        simpa [namedEntries, hst] using ih m hnd2 hf2 nc (sc + 1)
      · obtain ⟨hss0, hdp0⟩ := hf (stripName item) (by simp [markedNames, hst])
        have hnd' : markedNames (item :: rest)
            = stripName item :: markedNames rest := by simp [markedNames, hst]
        rw [hnd'] at hnd
        have hndR : (markedNames rest).Nodup := (List.nodup_cons.mp hnd).2
        have hnotmem : stripName item ∉ markedNames rest :=
          (List.nodup_cons.mp hnd).1
        have e1 : dictInsert m (stripName item ++ "_ss")
            ⟨wd ++ stripName item ++ "_ss.ps", true⟩
            = m ++ [(stripName item ++ "_ss",
                ⟨wd ++ stripName item ++ "_ss.ps", true⟩)] :=
          dictInsert_of_none hss0 _
        have hdp1 : dictLookup
            (m ++ [(stripName item ++ "_ss",
              (⟨wd ++ stripName item ++ "_ss.ps", true⟩ : ResultPath))])
            (stripName item ++ "_dp") = none := by
          rw [dictLookup_append_none hdp0]
          simp [dictLookup, ss_ne_dp (stripName item) (stripName item)]
        have e2 : dictInsert
            (m ++ [(stripName item ++ "_ss",
              (⟨wd ++ stripName item ++ "_ss.ps", true⟩ : ResultPath))])
            (stripName item ++ "_dp")
            ⟨wd ++ stripName item ++ "_dp.ps", pOn⟩
            = m ++ [(stripName item ++ "_ss",
                ⟨wd ++ stripName item ++ "_ss.ps", true⟩)]
              ++ [(stripName item ++ "_dp",
                ⟨wd ++ stripName item ++ "_dp.ps", pOn⟩)] :=
          dictInsert_of_none hdp1 _
        have hf2 : ∀ n ∈ markedNames rest,
            dictLookup (m ++ [(stripName item ++ "_ss",
                (⟨wd ++ stripName item ++ "_ss.ps", true⟩ : ResultPath))]
              ++ [(stripName item ++ "_dp",
                (⟨wd ++ stripName item ++ "_dp.ps", pOn⟩ : ResultPath))])
              (n ++ "_ss") = none ∧
            dictLookup (m ++ [(stripName item ++ "_ss",
                (⟨wd ++ stripName item ++ "_ss.ps", true⟩ : ResultPath))]
              ++ [(stripName item ++ "_dp",
                (⟨wd ++ stripName item ++ "_dp.ps", pOn⟩ : ResultPath))])
              (n ++ "_dp") = none := by
          intro n hn
          have hne : n ≠ stripName item := fun he => hnotmem (he ▸ hn)
          have hne1 : ¬ (stripName item ++ "_ss" = n ++ "_ss") :=
            fun he => hne (ss_inj he).symm
          have hne2 : ¬ (stripName item ++ "_dp" = n ++ "_dp") :=
            fun he => hne (dp_inj he).symm
          obtain ⟨hssn, hdpn⟩ := hf n (by rw [hnd']; exact List.mem_cons_of_mem _ hn)
          constructor
          · rw [List.append_assoc, dictLookup_append_none hssn]
            simp [dictLookup, hne1, Ne.symm (ss_ne_dp n (stripName item))]
          · rw [List.append_assoc, dictLookup_append_none hdpn]
            simp [dictLookup, ss_ne_dp (stripName item) n, hne2]
        rw [show rnafoldScan wd pOn m nc sc (item :: rest)
            = rnafoldScan wd pOn
                (dictInsert
                  (dictInsert m (stripName item ++ "_ss")
                    ⟨wd ++ stripName item ++ "_ss.ps", true⟩)
                  (stripName item ++ "_dp")
                  ⟨wd ++ stripName item ++ "_dp.ps", pOn⟩)
                (nc + 1) sc rest by simp [rnafoldScan, hst]]
        rw [e1, e2, ih _ hndR hf2 (nc + 1) sc]
        simp [namedEntries, hst, List.append_assoc]

theorem rnafold_closed (wd : String) (pOn : Bool) (data : List String)
    (hnd : (markedNames data).Nodup) :
    RNAfold_get_result_paths wd pOn data =
      namedEntries wd pOn data ++
        [("SS", ⟨wd ++ "rna.ps",
            decide ((anonCount data : Int)
              - ((markedNames data).length : Int) > 0)⟩),
         ("DP", ⟨wd ++ "dot.ps",
            pOn && decide ((anonCount data : Int)
              - ((markedNames data).length : Int) > 0)⟩)] := by
  have hm : (rnafoldScan wd pOn [] 0 0 data).1 = namedEntries wd pOn data := by
    simpa using
      rnafoldScan_closed wd pOn data [] hnd (fun n _ => ⟨rfl, rfl⟩) 0 0
  have hc1 : (rnafoldScan wd pOn [] 0 0 data).2.1
      = ((markedNames data).length : Nat) := by
    rw [rnafoldScan_counts wd pOn data [] 0 0]; simp
  have hc2 : (rnafoldScan wd pOn [] 0 0 data).2.2 = anonCount data := by
    rw [rnafoldScan_counts wd pOn data [] 0 0]; simp
  have hss : dictLookup (namedEntries wd pOn data) "SS" = none :=
    @namedEntries_lookup_short wd pOn "SS" rfl data
  have hdp2 : dictLookup (namedEntries wd pOn data ++
      [("SS", (⟨wd ++ "rna.ps",
        decide ((anonCount data : Int)
          - ((markedNames data).length : Int) > 0)⟩ : ResultPath))])
      "DP" = none := by
    rw [dictLookup_append_none (@namedEntries_lookup_short wd pOn "DP" rfl data)]
    simp [dictLookup]
  simp only [RNAfold_get_result_paths]
  rw [hm, hc1, hc2, dictInsert_of_none hss _, dictInsert_of_none hdp2 _,
    List.append_assoc]
  simp

theorem plotEntries_length (wd ext : String) :
    ∀ data : List String,
    (plotEntries wd ext data).length = (markedNames data).length := by
  intro data
  induction data with
  | nil => simp [plotEntries, markedNames]
  | cons item rest ih =>
      cases hst : startsWithGt item
      · simp [plotEntries, markedNames, hst, ih]
      · simp [plotEntries, markedNames, hst, ih]

theorem plotEntries_lookup_short (wd ext : String) {s : String}
    (hs : s.length = 2) :
    ∀ data : List String, dictLookup (plotEntries wd ext data) s = none := by
  intro data
  induction data with
  | nil => simp [plotEntries, dictLookup]
  | cons item rest ih =>
      cases hst : startsWithGt item
      · simp [plotEntries, hst, ih]
      · simp [plotEntries, hst, dictLookup,
          @suffix3_ne_len2 (stripName item) "_ss" s rfl hs, ih]

theorem plotEntries_lookup_ss {wd ext : String} {n : String} :
    ∀ {data : List String}, n ∈ markedNames data →
    (dictLookup (plotEntries wd ext data) (n ++ "_ss")).isSome := by
  intro data
  induction data with
  | nil => intro h; simp [markedNames] at h
  | cons item rest ih =>
      intro h
      cases hst : startsWithGt item
      · have h3 : n ∈ markedNames rest := by simpa [markedNames, hst] using h
        simpa [plotEntries, hst] using ih h3
      · rcases (by simpa [markedNames, hst] using h :
          n = stripName item ∨ n ∈ markedNames rest) with h2 | h2
        · subst h2
          simp [plotEntries, hst, dictLookup]
        · by_cases he1 : stripName item ++ "_ss" = n ++ "_ss"
          · simp [plotEntries, hst, dictLookup, he1]
          · simpa [plotEntries, hst, dictLookup, he1] using ih h2

theorem rnaplotScan_counts (wd ext : String) :
    ∀ (data : List String) (m : RDict) (nc sc : Nat),
    (rnaplotScan wd ext m nc sc data).2 =
      (nc + (markedNames data).length, sc + anonCount data) := by
  intro data
  induction data with
  | nil => intro m nc sc; simp [rnaplotScan, markedNames, anonCount]
  | cons item rest ih =>
      intro m nc sc
      cases h : startsWithGt item
      · simp [rnaplotScan, markedNames, anonCount, h, ih]; omega
      · simp [rnaplotScan, markedNames, anonCount, h, ih]; omega

theorem rnaplotScan_closed (wd ext : String) :
    ∀ (data : List String) (m : RDict),
    (markedNames data).Nodup →
    (∀ n ∈ markedNames data, dictLookup m (n ++ "_ss") = none) →
    ∀ nc sc,
    (rnaplotScan wd ext m nc sc data).1 = m ++ plotEntries wd ext data := by
  intro data
  induction data with
  | nil => intro m _ _ nc sc; simp [rnaplotScan, plotEntries]
  | cons item rest ih =>
      intro m hnd hf nc sc
      cases hst : startsWithGt item
      · have hnd2 : (markedNames rest).Nodup := by
          simpa [markedNames, hst] using hnd
        have hf2 : ∀ n ∈ markedNames rest,
            dictLookup m (n ++ "_ss") = none := by
          intro n hn
          exact hf n (by simpa [markedNames, hst] using hn)
        rw [show rnaplotScan wd ext m nc sc (item :: rest)
            = rnaplotScan wd ext m nc (sc + 1) rest by simp [rnaplotScan, hst]]
        simpa [plotEntries, hst] using ih m hnd2 hf2 nc (sc + 1)
      · have hss0 := hf (stripName item) (by simp [markedNames, hst])
        have hnd' : markedNames (item :: rest)
            = stripName item :: markedNames rest := by simp [markedNames, hst]
        rw [hnd'] at hnd
        have hndR : (markedNames rest).Nodup := (List.nodup_cons.mp hnd).2
        have hnotmem : stripName item ∉ markedNames rest :=
          (List.nodup_cons.mp hnd).1
        have e1 : dictInsert m (stripName item ++ "_ss")
            ⟨wd ++ stripName item ++ "_ss" ++ ext, true⟩
            = m ++ [(stripName item ++ "_ss",
                ⟨wd ++ stripName item ++ "_ss" ++ ext, true⟩)] :=
          dictInsert_of_none hss0 _
        have hf2 : ∀ n ∈ markedNames rest,
            dictLookup (m ++ [(stripName item ++ "_ss",
              (⟨wd ++ stripName item ++ "_ss" ++ ext, true⟩ : ResultPath))])
              (n ++ "_ss") = none := by
          intro n hn
          have hne : n ≠ stripName item := fun he => hnotmem (he ▸ hn)
          have hne1 : ¬ (stripName item ++ "_ss" = n ++ "_ss") :=
            fun he => hne (ss_inj he).symm
          have hssn := hf n (by rw [hnd']; exact List.mem_cons_of_mem _ hn)
          rw [dictLookup_append_none hssn]
          simp [dictLookup, hne1]
        rw [show rnaplotScan wd ext m nc sc (item :: rest)
            = rnaplotScan wd ext
                (dictInsert m (stripName item ++ "_ss")
                  ⟨wd ++ stripName item ++ "_ss" ++ ext, true⟩)
                (nc + 1) sc rest by simp [rnaplotScan, hst]]
        rw [e1, ih _ hndR hf2 (nc + 1) sc]
        simp [plotEntries, hst, List.append_assoc]

theorem rnaplot_closed (wd oVal : String) (absolute : String → String)
    (data : List String) (hnd : (markedNames data).Nodup) :
    RNAplot_get_result_paths wd false oVal absolute data =
      .ok (if decide (((anonCount data / 2 : Nat) : Int)
            - ((markedNames data).length : Int) > 0) then
          plotEntries wd ".ps" data ++ [("SS", ⟨wd ++ "rna" ++ ".ps", true⟩)]
        else plotEntries wd ".ps" data) := by
  have hm : (rnaplotScan wd ".ps" [] 0 0 data).1 = plotEntries wd ".ps" data := by
    simpa using rnaplotScan_closed wd ".ps" data [] hnd (fun n _ => rfl) 0 0
  have hc1 : (rnaplotScan wd ".ps" [] 0 0 data).2.1
      = (markedNames data).length := by
    rw [rnaplotScan_counts wd ".ps" data [] 0 0]; simp
  have hc2 : (rnaplotScan wd ".ps" [] 0 0 data).2.2 = anonCount data := by
    rw [rnaplotScan_counts wd ".ps" data [] 0 0]; simp
  have hfresh : dictLookup (plotEntries wd ".ps" data) "SS" = none :=
    @plotEntries_lookup_short wd ".ps" "SS" rfl data
  show Except.ok _ = _
  rw [hm, hc1, hc2]
  congr 1
  split
  · exact dictInsert_of_none hfresh _
  · rfl

/-! ### Round-trip lemmas for the Covet line-based adapter -/

theorem nl_data : ("\n" : String).data = ['\n'] := rfl

theorem dropWhile_of_none {p : Char → Bool} :
    ∀ l : List Char, (∀ c ∈ l, p c = false) → l.dropWhile p = l := by
  intro l h
  induction l with
  | nil => rfl
  | cons c rest ih =>
      rw [List.dropWhile_cons, h c (List.mem_cons_self c rest)]
      simp

theorem contains_nl_false {c : Char} (h : c ≠ '\n') :
    (['\n'] : List Char).contains c = false := by
  simpa using h

theorem pyStrip_eq_self {s : String}
    (h : ∀ c ∈ s.data, c ≠ '\n') : pyStrip [ '\n' ] s = s := by
  apply strExt
  show ((s.data.dropWhile fun c => List.contains ['\n'] c).reverse.dropWhile
      fun c => List.contains ['\n'] c).reverse = s.data
  rw [dropWhile_of_none s.data (fun c hc => contains_nl_false (h c hc))]
  rw [dropWhile_of_none s.data.reverse
    (fun c hc => contains_nl_false (h c (List.mem_reverse.mp hc)))]
  exact List.reverse_reverse s.data

theorem readlinesAux_noNl :
    ∀ (cs : List Char), (∀ c ∈ cs, c ≠ '\n') → ∀ (rest acc : List Char),
    readlinesAux (cs ++ rest) acc = readlinesAux rest (cs.reverse ++ acc) := by
  intro cs
  induction cs with
  | nil => intro _ rest acc; simp
  | cons c cs2 ih =>
      intro h rest acc
      have hc : ¬ (c = '\n') := h c (List.mem_cons_self c cs2)
      rw [List.cons_append]
      show (if c = '\n' then _ else readlinesAux (cs2 ++ rest) (c :: acc)) = _
      rw [if_neg hc, ih (fun x hx => h x (List.mem_cons_of_mem c hx)) rest (c :: acc)]
      simp

theorem readlinesAux_last (acc : List Char) :
    readlinesAux ['\n'] acc = [⟨acc.reverse ++ ['\n']⟩] := by
  simp [readlinesAux, List.reverse_cons]

theorem readlines_roundtrip :
    ∀ (data : List String), data ≠ [] →
    (∀ r ∈ data, ∀ c ∈ r.data, c ≠ '\n') →
    readlines (pyJoin "\n" data ++ "\n") = data.map (fun r => r ++ "\n") := by
  intro data
  induction data with
  | nil => intro h; exact absurd rfl h
  | cons x rest ih =>
      intro _ hnl
      have hx : ∀ c ∈ x.data, c ≠ '\n' :=
        hnl x (List.mem_cons_self x rest)
      cases rest with
      | nil =>
          show readlinesAux (x ++ "\n").data [] = [x ++ "\n"]
          rw [show (x ++ "\n").data = x.data ++ ['\n'] by
            rw [String.data_append, nl_data]]
          rw [readlinesAux_noNl x.data hx ['\n'] [], readlinesAux_last]
          refine congrArg (fun z => [z]) (strExt ?_)
          simp [String.data_append, nl_data]
      | cons y rest2 =>
          have hrest : (y :: rest2) ≠ [] := by simp
          have hnl2 : ∀ r ∈ y :: rest2, ∀ c ∈ r.data, c ≠ '\n' :=
            fun r hr => hnl r (List.mem_cons_of_mem x hr)
          have hJ : pyJoin "\n" (x :: y :: rest2)
              = x ++ "\n" ++ pyJoin "\n" (y :: rest2) := rfl
          show readlinesAux (pyJoin "\n" (x :: y :: rest2) ++ "\n").data []
              = (x ++ "\n") :: (y :: rest2).map (fun r => r ++ "\n")
          rw [hJ]
          rw [show (x ++ "\n" ++ pyJoin "\n" (y :: rest2) ++ "\n").data
              = x.data ++ ('\n' ::
                  (pyJoin "\n" (y :: rest2) ++ "\n").data) by
            simp [String.data_append, nl_data]]
          rw [readlinesAux_noNl x.data hx _ []]
          show (if ('\n' : Char) = '\n' then _ else _) = _
          rw [if_pos rfl]
          have ih2 : readlinesAux
              (pyJoin "\n" (y :: rest2) ++ "\n").data []
              = (y :: rest2).map (fun r => r ++ "\n") := ih hrest hnl2
          rw [ih2]
          refine congrArg (fun z => z :: _) (strExt ?_)
          simp [String.data_append, nl_data]

theorem map_pyStrip_eq_self {data : List String}
    (h : ∀ r ∈ data, ∀ c ∈ r.data, c ≠ '\n') :
    data.map (pyStrip [ '\n' ]) = data := by
  induction data with
  | nil => rfl
  | cons x rest ih =>
      rw [List.map_cons,
        pyStrip_eq_self (h x (List.mem_cons_self x rest)),
        ih (fun r hr => h r (List.mem_cons_of_mem x hr))]

theorem strAppend_empty (a : String) : a ++ "" = a :=
  strExt (by rw [String.data_append]; exact List.append_nil a.data)

theorem namedEntries_lookup_dp {wd : String} {pOn : Bool} {n : String} :
    ∀ {data : List String}, n ∈ markedNames data →
    (dictLookup (namedEntries wd pOn data) (n ++ "_dp")).isSome := by
  intro data
  induction data with
  | nil => intro h; simp [markedNames] at h
  | cons item rest ih =>
      intro h
      cases hst : startsWithGt item
      · have h3 : n ∈ markedNames rest := by simpa [markedNames, hst] using h
        simpa [namedEntries, hst] using ih h3
      · rcases (by simpa [markedNames, hst] using h :
          n = stripName item ∨ n ∈ markedNames rest) with h2 | h2
        · subst h2
          simp [namedEntries, hst, dictLookup,
            ss_ne_dp (stripName item) (stripName item)]
        · by_cases he1 : stripName item ++ "_ss" = n ++ "_dp"
          · simp [namedEntries, hst, dictLookup, he1]
          · by_cases he2 : stripName item ++ "_dp" = n ++ "_dp"
            · simp [namedEntries, hst, dictLookup, he1, he2]
            · simpa [namedEntries, hst, dictLookup, he1, he2] using ih h2

/-! ### Claim theorems -/

/-- Claim C1, counterexample: on the input `['>seq1', 'ACGUACGU']` the
RNAfold result-path mapping does contain a default `rna.ps` entry — the
key `SS` is present with path `rna.ps` (tagged not written) — contrary to
the claim that no such entry exists. -/
theorem rnafold_named_input_default_entry_cex :
    dictLookup (RNAfold_get_result_paths "" false [">seq1", "ACGUACGU"]) "SS"
      = some ⟨"rna.ps", false⟩ := rfl

/-- Claim C1 (amended): for RNAfold result-path resolution on
`['>seq1', 'ACGUACGU']`, the predicted mapping contains the key `seq1_ss`
whose path ends in `_ss.ps`, and the default `rna.ps` entry is present
under key `SS` but tagged as not written (`IsWritten = False`). -/
theorem rnafold_named_input_paths (wd : String) (pOn : Bool) :
    dictLookup (RNAfold_get_result_paths wd pOn [">seq1", "ACGUACGU"])
      "seq1_ss" = some ⟨wd ++ "seq1" ++ "_ss.ps", true⟩
    ∧ strEndsWith (wd ++ "seq1" ++ "_ss.ps") "_ss.ps" = true
    ∧ dictLookup (RNAfold_get_result_paths wd pOn [">seq1", "ACGUACGU"])
      "SS" = some ⟨wd ++ "rna.ps", false⟩ :=
  ⟨rfl, strEndsWith_append (wd ++ "seq1") "_ss.ps", rfl⟩

/-- Claim C2: in RNAplot output-extension resolution, if the `-o`
Parameter is on and holds a value absent from the filetype-to-extension
table, resolution fails by raising an error (here a `NameError`, since
the method reads `FILETYPE_TO_EXTENSION` as a bare module-level name)
rather than silently falling back to `'.ps'`; and if `-o` is off the
extension used is `'.ps'`. -/
theorem rnaplot_outfile_extension_spec (oVal : String)
    (absolute : String → String)
    (habsent : FILETYPE_TO_EXTENSION.lookup oVal = none) :
    (∃ e, RNAplot_get_outfile_extension true oVal absolute = .error e)
    ∧ RNAplot_get_outfile_extension false oVal absolute = .ok ".ps" :=
  ⟨⟨.nameError "FILETYPE_TO_EXTENSION", rfl⟩, rfl⟩

/-- Witness for C2 at the concrete out-of-table format value `pdf`. -/
theorem rnaplot_outfile_extension_spec_witness :
    FILETYPE_TO_EXTENSION.lookup "pdf" = none
    ∧ ((∃ e, RNAplot_get_outfile_extension true "pdf" id = .error e)
      ∧ RNAplot_get_outfile_extension false "pdf" id = .ok ".ps") :=
  ⟨rfl, rnaplot_outfile_extension_spec "pdf" id rfl⟩

/-- Claim C4: the claim is right about `Covet` (companion token
`<basename>.cm` first, then the main token, separated by a space, for
both adapters), but `Covee._input_as_lines` cannot emit any tokens: its
expression `data+'.cm'` adds the record list to a string, raising a
`TypeError` for every input list. -/
theorem covee_input_as_lines_type_error :
    Covee_input_as_lines [">seq1", "GGUACC"] "tmp0"
      = .error (.typeError "can only concatenate list (not str) to list")
    ∧ Covet_input_as_string "seqfile" = "seqfile.cm seqfile"
    ∧ Covet_input_as_lines_tokens "tmpf" = "tmpf.cm tmpf" :=
  ⟨rfl, rfl, rfl⟩

/-- Claim C5, counterexample: the round trip fails as universally stated.
For the empty record list the adapter still writes a final newline, so
reading back yields one empty line instead of zero records; and a record
containing an interior newline is split into two lines on reading. -/
theorem covet_roundtrip_cex :
    readlines (Covet_input_as_lines_content []) = ["\n"]
    ∧ ([] : List String).map (fun r => r ++ "\n") = []
    ∧ readlines (Covet_input_as_lines_content ["AC\nGU"]) = ["AC\n", "GU\n"]
    ∧ ["AC\nGU"].map (fun r => r ++ "\n") = ["AC\nGU\n"]
    ∧ (["AC\n", "GU\n"] : List String) ≠ ["AC\nGU\n"] :=
  ⟨rfl, rfl, rfl, rfl, by decide⟩

/-- Claim C5 (amended): for every nonempty ordered sequence of records,
none of which contains a newline character, writing it to the temporary
file via the line-based adapter and reading that file back yields the
same records in the same order, each terminated by exactly one newline,
including the last record. -/
theorem covet_roundtrip (data : List String) (hne : data ≠ [])
    (hnl : ∀ r ∈ data, ∀ c ∈ r.data, c ≠ '\n') :
    readlines (Covet_input_as_lines_content data)
      = data.map (fun r => r ++ "\n") := by
  unfold Covet_input_as_lines_content
  rw [map_pyStrip_eq_self hnl]
  exact readlines_roundtrip data hne hnl

/-- Witness for C5 at the concrete record list `['AC', 'GU']`. -/
theorem covet_roundtrip_witness :
    ((["AC", "GU"] : List String) ≠ [])
    ∧ (∀ r ∈ (["AC", "GU"] : List String), ∀ c ∈ r.data, c ≠ '\n')
    ∧ readlines (Covet_input_as_lines_content ["AC", "GU"])
      = (["AC", "GU"] : List String).map (fun r => r ++ "\n") :=
  ⟨by decide, by decide, covet_roundtrip ["AC", "GU"] (by decide) (by decide)⟩

/-- Claim C7: for RNAfold result-path resolution on `['ACGUACGU']`
(zero name-marked records, one anonymous record), the predicted mapping
contains the default secondary-structure entry `SS` with path ending in
`rna.ps`, tagged as written. -/
theorem rnafold_unnamed_default_written (wd : String) (pOn : Bool) :
    dictLookup (RNAfold_get_result_paths wd pOn ["ACGUACGU"]) "SS"
      = some ⟨wd ++ "rna.ps", true⟩
    ∧ strEndsWith (wd ++ "rna.ps") "rna.ps" = true :=
  ⟨rfl, strEndsWith_append wd "rna.ps"⟩

/-- Claim C8: `get_constrained_fold` raises before invoking RNAfold
whenever the sequence and constraint string differ in length or either is
empty, and `plot_from_seq_and_struct` raises before invoking RNAplot
whenever sequence and structure differ in length; neither silently
defaults or truncates. -/
theorem helper_length_checks (s c : String) (sn : Option String)
    (tmp : String) :
    ((s.length ≠ c.length ∨ s = "" ∨ c = "") →
      ∃ msg, get_constrained_fold s c = .raised msg)
    ∧ (s.length ≠ c.length →
      ∃ msg, plot_from_seq_and_struct s c sn tmp = .raised msg) := by
  constructor
  · intro h
    by_cases hs : s = ""
    · exact ⟨"No sequence found!", by simp [get_constrained_fold, hs]⟩
    · by_cases hc : c = ""
      · exact ⟨"No constraint string found!",
          by simp [get_constrained_fold, hs, hc]⟩
      · have hl : s.length ≠ c.length := by
          rcases h with h | h | h
          · exact h
          · exact absurd h hs
          · exact absurd h hc
        exact ⟨"Sequence and constraint string are not same length!",
          by simp [get_constrained_fold, hs, hc, hl]⟩
  · intro h
    exact ⟨"Sequence and structure are not same length!",
      by simp [plot_from_seq_and_struct, h]⟩

/-- Witness for C8 at the concrete mismatched pair `'AC'` / `'A'`. -/
theorem helper_length_checks_witness :
    (("AC" : String).length ≠ ("A" : String).length
      ∨ ("AC" : String) = "" ∨ ("A" : String) = "")
    ∧ (∃ msg, get_constrained_fold "AC" "A" = .raised msg)
    ∧ (∃ msg, plot_from_seq_and_struct "AC" "A" none "tmp0"
        = .raised msg) :=
  ⟨Or.inl (by decide),
    (helper_length_checks "AC" "A" none "tmp0").1 (Or.inl (by decide)),
    (helper_length_checks "AC" "A" none "tmp0").2 (by decide)⟩

/-- Claim C6: in RNAfold result-path resolution, every name-marked
record's `<name>_dp` entry is tagged as written exactly when the `-p`
Parameter is on, and the default `DP` entry is tagged as written exactly
when `-p` is on and the anonymous-record count strictly exceeds the
name-marked-record count. -/
theorem rnafold_dp_written_iff (wd : String) (pOn : Bool)
    (data : List String) (item : String)
    (h1 : item ∈ data) (h2 : startsWithGt item = true) :
    dictLookup (RNAfold_get_result_paths wd pOn data)
      (stripName item ++ "_dp")
      = some ⟨wd ++ stripName item ++ "_dp.ps", pOn⟩
    ∧ dictLookup (RNAfold_get_result_paths wd pOn data) "DP"
      = some ⟨wd ++ "dot.ps",
          pOn && decide ((markedNames data).length < anonCount data)⟩ := by
  have hc1 : (rnafoldScan wd pOn [] 0 0 data).2.1
      = (markedNames data).length := by
    rw [rnafoldScan_counts wd pOn data [] 0 0]; simp
  have hc2 : (rnafoldScan wd pOn [] 0 0 data).2.2 = anonCount data := by
    rw [rnafoldScan_counts wd pOn data [] 0 0]; simp
  have hdec : decide ((anonCount data : Int)
      - ((markedNames data).length : Int) > 0)
      = decide ((markedNames data).length < anonCount data) := by
    rw [decide_eq_decide]; omega
  constructor
  · have hmem := stripName_mem_markedNames h1 h2
    have hdp := rnafoldScan_dp wd pOn data [] 0 0 (stripName item)
      (Or.inl hmem)
    simp only [RNAfold_get_result_paths]
    rw [dictLookup_insert_ne _ _
        (@suffix3_ne_len2 (stripName item) "_dp" "DP" rfl rfl),
      dictLookup_insert_ne _ _
        (@suffix3_ne_len2 (stripName item) "_dp" "SS" rfl rfl)]
    exact hdp
  · simp only [RNAfold_get_result_paths]
    rw [dictLookup_insert_self, hc1, hc2, hdec]

/-- Witness for C6 at the concrete input `['>x', 'ACGU']` with `-p` on. -/
theorem rnafold_dp_written_iff_witness :
    ((">x" : String) ∈ ([">x", "ACGU"] : List String))
    ∧ startsWithGt ">x" = true
    ∧ (dictLookup (RNAfold_get_result_paths "" true [">x", "ACGU"])
        (stripName ">x" ++ "_dp")
        = some ⟨"" ++ stripName ">x" ++ "_dp.ps", true⟩
      ∧ dictLookup (RNAfold_get_result_paths "" true [">x", "ACGU"]) "DP"
        = some ⟨"" ++ "dot.ps",
            true && decide ((markedNames [">x", "ACGU"]).length
              < anonCount [">x", "ACGU"])⟩) :=
  ⟨by decide, by decide,
    rnafold_dp_written_iff "" true [">x", "ACGU"] ">x"
      (by decide) (by decide)⟩

/-- Claim C9: for every input list (including the empty one), the RNAfold
result-path mapping contains the keys `SS` and `DP`; the `SS` entry is
tagged as written exactly when the anonymous-record count strictly
exceeds the name-marked-record count. -/
theorem rnafold_default_keys_always (wd : String) (pOn : Bool)
    (data : List String) :
    dictLookup (RNAfold_get_result_paths wd pOn data) "SS"
      = some ⟨wd ++ "rna.ps",
          decide ((markedNames data).length < anonCount data)⟩
    ∧ (dictLookup (RNAfold_get_result_paths wd pOn data) "DP").isSome := by
  have hc1 : (rnafoldScan wd pOn [] 0 0 data).2.1
      = (markedNames data).length := by
    rw [rnafoldScan_counts wd pOn data [] 0 0]; simp
  have hc2 : (rnafoldScan wd pOn [] 0 0 data).2.2 = anonCount data := by
    rw [rnafoldScan_counts wd pOn data [] 0 0]; simp
  have hdec : decide ((anonCount data : Int)
      - ((markedNames data).length : Int) > 0)
      = decide ((markedNames data).length < anonCount data) := by
    rw [decide_eq_decide]; omega
  constructor
  · simp only [RNAfold_get_result_paths]
    rw [dictLookup_insert_ne _ _ (by decide : ("SS" : String) ≠ "DP"),
      dictLookup_insert_self, hc1, hc2, hdec]
  · simp only [RNAfold_get_result_paths]
    rw [dictLookup_insert_self]
    rfl

/-- Claim C10: the name of a name-marked record is obtained by stripping
all leading and trailing `>` and newline characters; a record consisting
only of `>` is counted as named and registers the key `_ss` with path
equal to the working directory plus `_ss` plus the extension; duplicate
names collapse into a single mapping entry (two `>d` records yield four
entries in total: one `d_ss`, one `d_dp`, plus the defaults). -/
theorem rnafold_name_stripping :
    (∀ (wd : String) (pOn : Bool) (data : List String) (item : String),
      item ∈ data → startsWithGt item = true →
      dictLookup (RNAfold_get_result_paths wd pOn data)
        (stripName item ++ "_ss")
        = some ⟨wd ++ stripName item ++ "_ss.ps", true⟩)
    ∧ stripName ">" = ""
    ∧ (∀ (wd : String) (pOn : Bool),
      dictLookup (RNAfold_get_result_paths wd pOn [">"]) "_ss"
        = some ⟨wd ++ "_ss.ps", true⟩)
    ∧ (RNAfold_get_result_paths "" false [">d\n", ">d"]).length = 4
    ∧ dictLookup (RNAfold_get_result_paths "" false [">d\n", ">d"]) "d_ss"
      = some ⟨"d_ss.ps", true⟩ := by
  refine ⟨?_, rfl, ?_, rfl, rfl⟩
  · intro wd pOn data item h1 h2
    have hmem := stripName_mem_markedNames h1 h2
    have hss := rnafoldScan_ss wd pOn data [] 0 0 (stripName item)
      (Or.inl hmem)
    simp only [RNAfold_get_result_paths]
    rw [dictLookup_insert_ne _ _
        (@suffix3_ne_len2 (stripName item) "_ss" "DP" rfl rfl),
      dictLookup_insert_ne _ _
        (@suffix3_ne_len2 (stripName item) "_ss" "SS" rfl rfl)]
    exact hss
  · intro wd pOn
    have h0 : dictLookup (RNAfold_get_result_paths wd pOn [">"]) "_ss"
        = some ⟨wd ++ "" ++ "_ss.ps", true⟩ := rfl
    rw [h0, strAppend_empty]

/-- Witness for C10's universally quantified part at the concrete
input `['>w', 'AC']`. -/
theorem rnafold_name_stripping_witness :
    ((">w" : String) ∈ ([">w", "AC"] : List String))
    ∧ startsWithGt ">w" = true
    ∧ dictLookup (RNAfold_get_result_paths "" false [">w", "AC"])
        (stripName ">w" ++ "_ss")
        = some ⟨"" ++ stripName ">w" ++ "_ss.ps", true⟩ :=
  ⟨by decide, by decide,
    rnafold_name_stripping.1 "" false [">w", "AC"] ">w"
      (by decide) (by decide)⟩

/-- Claim C3, counterexample: RNAfold on `['>a', 'ACGU']` (one named, one
anonymous record, excess not positive) still registers the default-named
entry `SS`, where the claim predicts zero default groups; and RNAfold on
`['>a', '>a', 's1', 's2', 's3']` (two name-marked records with the same
stripped name) registers only one named group — four entries in total
instead of the claimed two named groups plus defaults. -/
theorem result_path_group_counts_cex :
    dictLookup (RNAfold_get_result_paths "" false [">a", "ACGU"]) "SS"
      = some ⟨"rna.ps", false⟩
    ∧ (RNAfold_get_result_paths "" false
        [">a", ">a", "s1", "s2", "s3"]).length = 4 :=
  ⟨rfl, rfl⟩

/-- Claim C3 (amended): for every line-based input whose name-marked
records strip to pairwise-distinct names, resolution registers exactly K
named artifact groups (K = number of name-marked records). RNAplot
additionally registers one default-named group exactly when the
anonymous-record count divided by 2 strictly exceeds K, and zero default
groups otherwise; RNAfold always registers the default keys `SS` and
`DP`, with `SS` tagged as written exactly when the anonymous-record count
strictly exceeds K. -/
theorem result_path_group_counts (wd : String) (pOn : Bool) (oVal : String)
    (absolute : String → String) (data : List String)
    (hnd : (markedNames data).Nodup) :
    ((RNAfold_get_result_paths wd pOn data).length
        = 2 * (markedNames data).length + 2
      ∧ (∀ n ∈ markedNames data,
          (dictLookup (RNAfold_get_result_paths wd pOn data)
            (n ++ "_ss")).isSome
          ∧ (dictLookup (RNAfold_get_result_paths wd pOn data)
            (n ++ "_dp")).isSome)
      ∧ dictLookup (RNAfold_get_result_paths wd pOn data) "SS"
          = some ⟨wd ++ "rna.ps",
              decide ((markedNames data).length < anonCount data)⟩)
    ∧ (∃ m, RNAplot_get_result_paths wd false oVal absolute data = .ok m
        ∧ m.length = (markedNames data).length
            + (if (markedNames data).length < anonCount data / 2
              then 1 else 0)
        ∧ (∀ n ∈ markedNames data, (dictLookup m (n ++ "_ss")).isSome)
        ∧ ((dictLookup m "SS").isSome
            ↔ (markedNames data).length < anonCount data / 2)) := by
  have hdecSS : decide ((anonCount data : Int)
      - ((markedNames data).length : Int) > 0)
      = decide ((markedNames data).length < anonCount data) := by
    rw [decide_eq_decide]; omega
  have hcl := rnafold_closed wd pOn data hnd
  rw [hdecSS] at hcl
  constructor
  · refine ⟨?_, ?_, ?_⟩
    · rw [hcl, List.length_append, namedEntries_length]
      simp
    · intro n hn
      constructor
      · rw [hcl]
        obtain ⟨v, hv⟩ := Option.isSome_iff_exists.mp
          (@namedEntries_lookup_ss wd pOn n data hn)
        rw [dictLookup_append_some hv]
        rfl
      · rw [hcl]
        obtain ⟨v, hv⟩ := Option.isSome_iff_exists.mp
          (@namedEntries_lookup_dp wd pOn n data hn)
        rw [dictLookup_append_some hv]
        rfl
    · rw [hcl, dictLookup_append_none
        (@namedEntries_lookup_short wd pOn "SS" rfl data)]
      simp [dictLookup]
  · have hplotdec : decide (((anonCount data / 2 : Nat) : Int)
        - ((markedNames data).length : Int) > 0)
        = decide ((markedNames data).length < anonCount data / 2) := by
      rw [decide_eq_decide]; omega
    have hpl := rnaplot_closed wd oVal absolute data hnd
    rw [hplotdec] at hpl
    by_cases hc : (markedNames data).length < anonCount data / 2
    · refine ⟨plotEntries wd ".ps" data
        ++ [("SS", ⟨wd ++ "rna" ++ ".ps", true⟩)], ?_, ?_, ?_, ?_⟩
      · rw [hpl]; simp [hc]
      · rw [List.length_append, plotEntries_length]; simp [hc]
      · intro n hn
        obtain ⟨v, hv⟩ := Option.isSome_iff_exists.mp
          (@plotEntries_lookup_ss wd ".ps" n data hn)
        rw [dictLookup_append_some hv]
        rfl
      · rw [dictLookup_append_none
          (@plotEntries_lookup_short wd ".ps" "SS" rfl data)]
        simp [dictLookup, hc]
    · refine ⟨plotEntries wd ".ps" data, ?_, ?_, ?_, ?_⟩
      · rw [hpl]; simp [hc]
      · rw [plotEntries_length]; simp [hc]
      · intro n hn
        obtain ⟨v, hv⟩ := Option.isSome_iff_exists.mp
          (@plotEntries_lookup_ss wd ".ps" n data hn)
        rw [hv]
        rfl
      · rw [@plotEntries_lookup_short wd ".ps" "SS" rfl data]
        simp [hc]

/-- Witness for C3 at the concrete input `['>n']`. -/
theorem result_path_group_counts_witness :
    (markedNames [">n"]).Nodup
    ∧ (((RNAfold_get_result_paths "" false [">n"]).length
          = 2 * (markedNames [">n"]).length + 2
        ∧ (∀ n ∈ markedNames [">n"],
            (dictLookup (RNAfold_get_result_paths "" false [">n"])
              (n ++ "_ss")).isSome
            ∧ (dictLookup (RNAfold_get_result_paths "" false [">n"])
              (n ++ "_dp")).isSome)
        ∧ dictLookup (RNAfold_get_result_paths "" false [">n"]) "SS"
            = some ⟨"" ++ "rna.ps",
                decide ((markedNames [">n"]).length < anonCount [">n"])⟩)
      ∧ (∃ m, RNAplot_get_result_paths "" false "o" id [">n"] = .ok m
          ∧ m.length = (markedNames [">n"]).length
              + (if (markedNames [">n"]).length < anonCount [">n"] / 2
                then 1 else 0)
          ∧ (∀ n ∈ markedNames [">n"], (dictLookup m (n ++ "_ss")).isSome)
          ∧ ((dictLookup m "SS").isSome
              ↔ (markedNames [">n"]).length < anonCount [">n"] / 2))) :=
  ⟨by decide, result_path_group_counts "" false "o" id [">n"] (by decide)⟩

end PyCogent
